import Mathlib

/-!
Verification of the EuroMillions analyzer core.

Shallow embedding of the statistics / bet-generation core of the
`euromilhoes_analyzer` repository (`sorteios` Django app), together with
theorems settling the specification's claims about it.

Conventions of the embedding:
* Calendar dates are represented by an integer day number (`ℤ`); the
  difference of two dates in days is the integer difference, matching
  Python's `(a - b).days` for `datetime.date` values.
* Python `float` arithmetic on the statistics is modelled by exact
  rational arithmetic (`ℚ`).  Where a float *literal* takes part in a
  comparison against a stored 4-decimal quantity (the `status`
  thresholds) the literal is embedded by its exact binary64 value, so
  the comparison is bit-faithful.
* Django querysets are embedded as lists of records; `update_or_create`
  keyed upserts become pointwise updates of a `ℕ → Option row` map.
-/

namespace Euromilhoes

/-- One EuroMillions draw (`sorteios.models.Sorteio`): a date plus five
main numbers (1–50) and two stars (1–12).  The date is unique per draw
in the repository. -/
structure Sorteio where
  data : ℤ
  numero_1 : ℕ
  numero_2 : ℕ
  numero_3 : ℕ
  numero_4 : ℕ
  numero_5 : ℕ
  estrela_1 : ℕ
  estrela_2 : ℕ
  deriving DecidableEq, Repr

/-- Embeds `Sorteio.get_numeros`: the five main numbers, sorted ascending. -/
def Sorteio.getNumeros (s : Sorteio) : List ℕ :=
  List.insertionSort (· ≤ ·)
    [s.numero_1, s.numero_2, s.numero_3, s.numero_4, s.numero_5]

/-- Embeds `Sorteio.get_estrelas`: the two stars, sorted ascending. -/
def Sorteio.getEstrelas (s : Sorteio) : List ℕ :=
  List.insertionSort (· ≤ ·) [s.estrela_1, s.estrela_2]

/-- Embeds `Sorteio.soma_numeros`: sum of the five main numbers. -/
def Sorteio.somaNumeros (s : Sorteio) : ℕ := s.getNumeros.sum

/-- Frequency of main number `n` over a draw list
(`AnalisadorEstatistico.calcular_frequencias_numeros`): the `Counter`
counts every occurrence of `n` among the draws' `get_numeros` lists. -/
def freqNumero (sorteios : List Sorteio) (n : ℕ) : ℕ :=
  ((sorteios.map Sorteio.getNumeros).flatten).count n

/-- Frequency of star `e` over a draw list
(`AnalisadorEstatistico.calcular_frequencias_estrelas`). -/
def freqEstrela (sorteios : List Sorteio) (e : ℕ) : ℕ :=
  ((sorteios.map Sorteio.getEstrelas).flatten).count e

/-- The ascending-date comparison backing `order_by('data')`. -/
def dataLe (a b : Sorteio) : Prop := a.data ≤ b.data

instance : DecidableRel dataLe := fun a b =>
  inferInstanceAs (Decidable (a.data ≤ b.data))

instance : IsTotal Sorteio dataLe := ⟨fun a b => le_total a.data b.data⟩

instance : IsTrans Sorteio dataLe := ⟨fun _ _ _ h1 h2 => le_trans h1 h2⟩

/-- Ascending-by-date ordering used by `calcular_gaps`
(`self.sorteios.order_by('data')`). -/
def ordenarPorData (sorteios : List Sorteio) : List Sorteio :=
  List.insertionSort dataLe sorteios

/-- The ascending list of dates of the draws satisfying `mem`
(the `aparicoes` list built by `calcular_gaps`). -/
def aparicoes (sorteios : List Sorteio) (mem : Sorteio → Bool) : List ℤ :=
  ((ordenarPorData sorteios).filter mem).map Sorteio.data

/-- Successive differences of a list (the per-value day gaps between
consecutive appearance dates computed by `calcular_gaps`). -/
def diffs : List ℤ → List ℤ
  | [] => []
  | [_] => []
  | a :: b :: t => (b - a) :: diffs (b :: t)

/-- Python's `max(l)` on a nonempty list, `0` for the empty one
(`max(gaps) if gaps else 0`). -/
def maxOfList : List ℤ → ℤ
  | [] => 0
  | a :: t => t.foldl max a

/-- Result of `AnalisadorEstatistico.calcular_gaps`. -/
structure GapsResult where
  gap_medio : ℚ
  gap_maximo : ℤ
  ultima_aparicao : Option ℤ
  dias_sem_sair : ℤ
  deriving DecidableEq, Repr

/-- Embeds `AnalisadorEstatistico.calcular_gaps`, with `hoje` standing for
`date.today()` and `mem` the containment test selected by `tipo`. -/
def calcularGaps (sorteios : List Sorteio) (hoje : ℤ) (mem : Sorteio → Bool) :
    GapsResult :=
  let aps := aparicoes sorteios mem
  match aps.getLast? with
  | none => ⟨0, 0, none, 0⟩
  | some ultima =>
      let gaps := diffs aps
      ⟨if gaps = [] then 0 else (gaps.sum : ℚ) / gaps.length,
       maxOfList gaps, some ultima, hoje - ultima⟩

/-- Decimal rounding of a rational to `dp` places, standing for the
composition `Decimal(str(round(x, dp)))` in the recompute.  (Python
rounds the float half-to-even; the claims under verification never
depend on the tie-breaking rule, only on rounding being a function.) -/
def roundQ (dp : ℕ) (x : ℚ) : ℚ :=
  (round (x * 10 ^ dp) : ℤ) / (10 : ℚ) ^ dp

/-- One statistic row, carrying exactly the seven fields written by
`atualizar_estatisticas` into `EstatisticaNumero` / `EstatisticaEstrela`
(the auto-`atualizado_em` timestamp is not part of the record). -/
structure EstatRow where
  frequencia : ℕ
  percentagem : ℚ
  ultima_aparicao : Option ℤ
  dias_sem_sair : ℤ
  gap_medio : ℚ
  gap_maximo : ℤ
  desvio_esperado : ℚ
  deriving DecidableEq, Repr

/-- The row written for main number `n` by `atualizar_estatisticas`
(percentage over `total*5` slots, expected frequency `total * 5/50`). -/
def rowNumero (sorteios : List Sorteio) (hoje : ℤ) (n : ℕ) : EstatRow :=
  let total : ℕ := sorteios.length
  let frequencia := freqNumero sorteios n
  let g := calcularGaps sorteios hoje (fun s => decide (n ∈ s.getNumeros))
  let frequenciaEsperada : ℚ := (total : ℚ) * (5 / 50)
  let percentagem : ℚ := ((frequencia : ℚ) / ((total : ℚ) * 5)) * 100
  let desvio : ℚ :=
    if frequenciaEsperada > 0 then
      ((frequencia : ℚ) - frequenciaEsperada) / frequenciaEsperada
    else 0
  { frequencia := frequencia
    percentagem := roundQ 2 percentagem
    ultima_aparicao := g.ultima_aparicao
    dias_sem_sair := g.dias_sem_sair
    gap_medio := roundQ 2 g.gap_medio
    gap_maximo := g.gap_maximo
    desvio_esperado := roundQ 4 desvio }

/-- The row written for star `e` by `atualizar_estatisticas`
(percentage over `total*2` slots, expected frequency `total * 2/12`). -/
def rowEstrela (sorteios : List Sorteio) (hoje : ℤ) (e : ℕ) : EstatRow :=
  let total : ℕ := sorteios.length
  let frequencia := freqEstrela sorteios e
  let g := calcularGaps sorteios hoje (fun s => decide (e ∈ s.getEstrelas))
  let frequenciaEsperada : ℚ := (total : ℚ) * (2 / 12)
  let percentagem : ℚ := ((frequencia : ℚ) / ((total : ℚ) * 2)) * 100
  let desvio : ℚ :=
    if frequenciaEsperada > 0 then
      ((frequencia : ℚ) - frequenciaEsperada) / frequenciaEsperada
    else 0
  { frequencia := frequencia
    percentagem := roundQ 2 percentagem
    ultima_aparicao := g.ultima_aparicao
    dias_sem_sair := g.dias_sem_sair
    gap_medio := roundQ 2 g.gap_medio
    gap_maximo := g.gap_maximo
    desvio_esperado := roundQ 4 desvio }

/-- Persistent statistics state: the (possibly absent) stored row per
main number and per star.  `update_or_create` keyed on the value is an
update of this map at that key. -/
structure EstatState where
  numeros : ℕ → Option EstatRow
  estrelas : ℕ → Option EstatRow

/-- `AnalisadorEstatistico.atualizar_estatisticas` as a state
transformer: an early return leaves the state untouched when there are
no draws, otherwise every key 1–50 (numbers) and 1–12 (stars) is
upserted with the recomputed row.  (For draw sets respecting the model
validators the frequency dictionaries have exactly these keys.) -/
def atualizarEstatisticas (sorteios : List Sorteio) (hoje : ℤ)
    (st : EstatState) : EstatState :=
  if sorteios.length = 0 then st
  else
    { numeros := fun n =>
        if 1 ≤ n ∧ n ≤ 50 then some (rowNumero sorteios hoje n) else st.numeros n
      estrelas := fun e =>
        if 1 ≤ e ∧ e ≤ 12 then some (rowEstrela sorteios hoje e) else st.estrelas e }

/-- The exact rational value of the IEEE binary64 literal `0.1`
(`3602879701896397 * 2⁻⁵⁵`), against which Python compares the stored
4-decimal `Decimal` in the `status` properties. -/
def pyFloat01 : ℚ := 3602879701896397 / 36028797018963968

/-- Embeds `EstatisticaNumero.status`: classify by stored deviation,
`> 0.1 → "quente"`, `< -0.1 → "frio"`, otherwise `"normal"` (the `0.1`
literal is a Python float). -/
def statusNumero (desvio : ℚ) : String :=
  if desvio > pyFloat01 then "quente"
  else if desvio < -pyFloat01 then "frio"
  else "normal"

/-- Embeds `EstatisticaEstrela.status`: same thresholds, feminine labels. -/
def statusEstrela (desvio : ℚ) : String :=
  if desvio > pyFloat01 then "quente"
  else if desvio < -pyFloat01 then "fria"
  else "normal"

/-- The unrounded deviation computed by `atualizar_estatisticas` for a
main number: `(freq - expected)/expected` with
`expected = total * (5/50)`, and `0` when `expected` is not positive. -/
def desvioNumero (total freq : ℕ) : ℚ :=
  let frequenciaEsperada : ℚ := (total : ℚ) * (5 / 50)
  if frequenciaEsperada > 0 then
    ((freq : ℚ) - frequenciaEsperada) / frequenciaEsperada
  else 0

/-- The unrounded deviation computed by `atualizar_estatisticas` for a
star: `expected = total * (2/12)`. -/
def desvioEstrela (total freq : ℕ) : ℚ :=
  let frequenciaEsperada : ℚ := (total : ℚ) * (2 / 12)
  if frequenciaEsperada > 0 then
    ((freq : ℚ) - frequenciaEsperada) / frequenciaEsperada
  else 0

/-- A generated bet (`sorteios.models.ApostaGerada`): five numbers, two
stars, tagged with the strategy string that produced it. -/
structure ApostaGerada where
  estrategia : String
  numero_1 : ℕ
  numero_2 : ℕ
  numero_3 : ℕ
  numero_4 : ℕ
  numero_5 : ℕ
  estrela_1 : ℕ
  estrela_2 : ℕ
  deriving DecidableEq, Repr

/-- Embeds `ApostaGerada.get_numeros`. -/
def ApostaGerada.getNumeros (a : ApostaGerada) : List ℕ :=
  List.insertionSort (· ≤ ·)
    [a.numero_1, a.numero_2, a.numero_3, a.numero_4, a.numero_5]

/-- Embeds `ApostaGerada.get_estrelas`. -/
def ApostaGerada.getEstrelas (a : ApostaGerada) : List ℕ :=
  List.insertionSort (· ≤ ·) [a.estrela_1, a.estrela_2]

/-- Embeds `ApostaGerada.verificar_resultado`: the pair of intersection sizes
`(len(set(bet_numbers) & set(draw_numbers)),
len(set(bet_stars) & set(draw_stars)))`. -/
def verificarResultado (a : ApostaGerada) (s : Sorteio) : ℕ × ℕ :=
  ((a.getNumeros.toFinset ∩ s.getNumeros.toFinset).card,
   (a.getEstrelas.toFinset ∩ s.getEstrelas.toFinset).card)

/-- Embeds `ApostaMultipla._calcular_premio`: the fixed prize-tier table keyed
on the `(number matches, star matches)` pair, `"Sem prémio"` when the
pair has no entry. -/
def calcularPremio (acertosN acertosE : ℕ) : String :=
  if acertosN = 5 ∧ acertosE = 2 then "1º Prémio (Jackpot)"
  else if acertosN = 5 ∧ acertosE = 1 then "2º Prémio"
  else if acertosN = 5 ∧ acertosE = 0 then "3º Prémio"
  else if acertosN = 4 ∧ acertosE = 2 then "4º Prémio"
  else if acertosN = 4 ∧ acertosE = 1 then "5º Prémio"
  else if acertosN = 4 ∧ acertosE = 0 then "6º Prémio"
  else if acertosN = 3 ∧ acertosE = 2 then "7º Prémio"
  else if acertosN = 3 ∧ acertosE = 1 then "8º Prémio"
  else if acertosN = 2 ∧ acertosE = 2 then "9º Prémio"
  else if acertosN = 3 ∧ acertosE = 0 then "10º Prémio"
  else if acertosN = 1 ∧ acertosE = 2 then "11º Prémio"
  else if acertosN = 2 ∧ acertosE = 1 then "12º Prémio"
  else if acertosN = 2 ∧ acertosE = 0 then "13º Prémio"
  else "Sem prémio"

/-- Descending-by-date ordering used by `analisar_soma_tendencias`
(`self.sorteios.order_by('-data')`), most recent draw first. -/
def ordenarPorDataDesc (sorteios : List Sorteio) : List Sorteio :=
  List.insertionSort (fun a b => b.data ≤ a.data) sorteios

/-- Arithmetic mean of a list of naturals as a rational, `0` for the
empty list (`sum(l)/len(l) if l else 0`). -/
def mediaQ (l : List ℕ) : ℚ :=
  if l = [] then 0 else ((l.sum : ℚ) / (l.length : ℚ))

/-- The fields of `AnalisadorEstatistico.analisar_soma_tendencias`
relevant to trend classification (the band histogram is independent of
the trend and not modelled). -/
structure TendenciasResult where
  media_primeira : ℚ
  media_segunda : ℚ
  tendencia : String
  deriving DecidableEq, Repr

/-- Embeds `AnalisadorEstatistico.analisar_soma_tendencias`: take the most
recent `ultimosN` draws in *descending* date order, split their
main-number sums at the midpoint of that list (`primeira_metade` is the
head, i.e. the most recent draws), and compare half-means with the
`1.05` / `0.95` factors.  Returns `none` on an empty draw set (the
`{'erro': ...}` branch).  The float factors are modelled by the exact
rationals `21/20` and `19/20`; the stored sums are small integers, so
none of the comparisons falls inside the sub-`1e-15` window where
binary64 rounding of `media * 1.05` could disagree. -/
def analisarSomaTendencias (sorteios : List Sorteio) (ultimosN : ℕ) :
    Option TendenciasResult :=
  let recentes := (ordenarPorDataDesc sorteios).take ultimosN
  if recentes = [] then none
  else
    let somas := recentes.map Sorteio.somaNumeros
    let primeiraMetade := somas.take (somas.length / 2)
    let segundaMetade := somas.drop (somas.length / 2)
    let mediaPrimeira := mediaQ primeiraMetade
    let mediaSegunda := mediaQ segundaMetade
    let tendencia :=
      if mediaSegunda > mediaPrimeira * (21 / 20) then "subindo"
      else if mediaSegunda < mediaPrimeira * (19 / 20) then "descendo"
      else "estavel"
    some ⟨mediaPrimeira, mediaSegunda, tendencia⟩

/-- Cumulative walk of `PrevisaoML._selecionar_ponderado`'s weighted
branch: running through the scores accumulating, return the index of
the first position where the accumulated weight reaches `r`
(`acumulado >= r` triggers the `break`), `none` if the loop ends
without a break. -/
def walkFind : List ℚ → ℚ → ℚ → Option ℕ
  | [], _, _ => none
  | score :: rest, acumulado, r =>
      if acumulado + score ≥ r then some 0
      else (walkFind rest (acumulado + score) r).map (· + 1)

/-- The index selected in one iteration of `_selecionar_ponderado`:
uniform fallback (`random.randint(0, len-1)`, embedded as an arbitrary
draw reduced mod the pool size) when the total weight is zero,
otherwise the cumulative walk with the uniform draw `r` (falling back
to the initialisation `idx = 0` when the walk never breaks). -/
def selIdx (disponiveis : List (ℕ × ℚ)) (r : ℚ) (ri : ℕ) : ℕ :=
  let total := (disponiveis.map Prod.snd).sum
  if total = 0 then ri % disponiveis.length
  else (walkFind (disponiveis.map Prod.snd) 0 r).getD 0

/-- The selection loop of `_selecionar_ponderado`: `fuel` iterations
(fixed up front as `min n len`), each appending the value at the chosen
index and popping it from the pool; the loop breaks early if the pool
is ever empty.  `rq`/`ri` are the streams of uniform rational draws and
integer draws consumed step by step. -/
def selLoop : ℕ → List (ℕ × ℚ) → (ℕ → ℚ) → (ℕ → ℕ) → ℕ → List ℕ
  | 0, _, _, _, _ => []
  | fuel + 1, disponiveis, rq, ri, step =>
      if disponiveis = [] then []
      else
        let idx := selIdx disponiveis (rq step) (ri step)
        (disponiveis.getD idx (0, 0)).1 ::
          selLoop fuel (disponiveis.eraseIdx idx) rq ri (step + 1)

/-- Embeds `PrevisaoML._selecionar_ponderado`: select `n` values from the
`(value, score)` pool by repeated weighted (or uniform-fallback)
choice without replacement. -/
def selecionarPonderado (items : List (ℕ × ℚ)) (n : ℕ)
    (rq : ℕ → ℚ) (ri : ℕ → ℕ) : List ℕ :=
  if items = [] then []
  else selLoop (min n items.length) items rq ri 0

/-- A CSV candidate row of `Command.importar_csv`, at the point after
the `_parse_data` / `_parse_numeros` / `_parse_estrelas` helpers ran:
the parsed date (`none` when no accepted format matched) and the lists
of successfully parsed numbers and stars (already sorted by the
helpers).  The jackpot/winner columns do not influence acceptance and
are not modelled. -/
structure RowCsv where
  data : Option ℤ
  numeros : List ℕ
  estrelas : List ℕ
  deriving DecidableEq, Repr

/-- Build the `Sorteio` record created for an accepted row
(`Sorteio.objects.create(...)` followed by the sort-on-save
normalisation, which the already-sorted parse output passes through
unchanged). -/
def mkSorteio (d : ℤ) (numeros estrelas : List ℕ) : Sorteio :=
  { data := d
    numero_1 := numeros.getD 0 0
    numero_2 := numeros.getD 1 0
    numero_3 := numeros.getD 2 0
    numero_4 := numeros.getD 3 0
    numero_5 := numeros.getD 4 0
    estrela_1 := estrelas.getD 0 0
    estrela_2 := estrelas.getD 1 0 }

/-- Running state of one `importar_csv` run: the Draw repository plus
the three counters reported in the summary line. -/
structure ImportState where
  repo : List Sorteio
  importados : ℕ
  duplicados : ℕ
  erros : ℕ
  deriving DecidableEq, Repr

/-- One loop iteration of `importar_csv`: rows failing the shape check
(`not data or len(numeros) != 5 or len(estrelas) != 2`) count as
errors; otherwise a row whose date is already in the repository counts
as a duplicate and is skipped; otherwise the draw is created.  The
existence check runs against the live repository, so rows inserted
earlier in the same run are seen. -/
def importStep (st : ImportState) (r : RowCsv) : ImportState :=
  match r.data with
  | none => { st with erros := st.erros + 1 }
  | some d =>
      if r.numeros.length ≠ 5 ∨ r.estrelas.length ≠ 2 then
        { st with erros := st.erros + 1 }
      else if st.repo.any (fun s => s.data = d) then
        { st with duplicados := st.duplicados + 1 }
      else
        { st with
          repo := st.repo ++ [mkSorteio d r.numeros r.estrelas]
          importados := st.importados + 1 }

/-- Embeds `Command.importar_csv` over the parsed rows of the file, starting
from the given repository contents. -/
def importarCsv (repo : List Sorteio) (rows : List RowCsv) : ImportState :=
  rows.foldl importStep ⟨repo, 0, 0, 0⟩

/-- Source of randomness injected into the bet generator: `sample pool
k` stands for `random.sample(pool, k)` (a k-element sample of the pool
without replacement; its distribution is irrelevant to the claims). -/
structure RandomSource where
  sample : List ℕ → ℕ → List ℕ

/-- Embeds `GeradorApostas.gerar_aleatorio`: uniform 5-of-50 and 2-of-12
sampling without replacement, results sorted. -/
def gerarAleatorio (rs : RandomSource) : List ℕ × List ℕ :=
  (List.insertionSort (· ≤ ·) (rs.sample ((List.range 50).map (· + 1)) 5),
   List.insertionSort (· ≤ ·) (rs.sample ((List.range 12).map (· + 1)) 2))

/-- The named strategies `gerar_e_guardar` dispatches on before the
catch-all `else` branch. -/
def estrategiasConhecidas : List String :=
  ["frequencia", "frios", "equilibrada", "mista"]

/-- Embeds `GeradorApostas.gerar_e_guardar`, restricted to the dispatch that
decides the claim: any strategy string outside the recognised set falls
into the `else:  # aleatorio` branch (no exception is raised), and the
created `ApostaGerada` is tagged with the *caller's* strategy string.
The bodies of the four recognised strategies read the statistics
rankings and are abstracted by the opaque-to-this-claim `conhecida`
results handed in; only the fallback branch's behaviour is asserted. -/
def gerarEGuardar (estrategia : String) (rs : RandomSource)
    (conhecida : String → List ℕ × List ℕ) : ApostaGerada :=
  let par :=
    if estrategia ∈ estrategiasConhecidas then conhecida estrategia
    else gerarAleatorio rs
  { estrategia := estrategia
    numero_1 := par.1.getD 0 0
    numero_2 := par.1.getD 1 0
    numero_3 := par.1.getD 2 0
    numero_4 := par.1.getD 3 0
    numero_5 := par.1.getD 4 0
    estrela_1 := par.2.getD 0 0
    estrela_2 := par.2.getD 1 0 }

/-! Theorems settling the claims. -/

/-- The literal `0.1` as a binary64 float is strictly above the rational `1/10`. -/
lemma pyFloat01_gt : (1 : ℚ) / 10 < pyFloat01 := by
  norm_num [pyFloat01]

/-- On the 4-decimal grid of the stored `Decimal` values, comparison
against the float literal `0.1` coincides with comparison against the
exact rational `1/10`. -/
lemma grid_gt_iff (k : ℤ) : (k : ℚ) / 10000 > pyFloat01 ↔ (k : ℚ) / 10000 > 1 / 10 := by
  constructor
  · intro h
    have := pyFloat01_gt
    linarith
  · intro h
    have h1000 : (1000 : ℚ) < (k : ℚ) := by
      rw [gt_iff_lt, lt_div_iff₀ (by norm_num : (0 : ℚ) < 10000)] at h
      linarith
    have hk : (1001 : ℤ) ≤ k := by exact_mod_cast h1000
    have hk' : (1001 : ℚ) ≤ (k : ℚ) := by exact_mod_cast hk
    have : (1001 : ℚ) / 10000 ≤ (k : ℚ) / 10000 := by gcongr
    have hgap : pyFloat01 < (1001 : ℚ) / 10000 := by norm_num [pyFloat01]
    linarith

/-- Negative-side analogue of `grid_gt_iff`. -/
lemma grid_lt_iff (k : ℤ) : (k : ℚ) / 10000 < -pyFloat01 ↔ (k : ℚ) / 10000 < -(1 / 10) := by
  have h := grid_gt_iff (-k)
  push_cast at h
  constructor
  · intro hlt
    have : (-k : ℚ) / 10000 > pyFloat01 := by rw [neg_div] ; linarith
    have := h.mp this
    rw [neg_div] at this
    linarith
  · intro hlt
    have : (-k : ℚ) / 10000 > 1 / 10 := by rw [neg_div] ; linarith
    have := h.mpr this
    rw [neg_div] at this
    linarith

/-- An all-`none` prior statistics state, used by concrete witnesses. -/
def estadoVazio : EstatState := ⟨fun _ => none, fun _ => none⟩

/-- C1.  Statistics recompute is idempotent and deterministic: for a
fixed draw list and a fixed current date, running
`atualizar_estatisticas` twice in a row leaves exactly the statistic
rows a single run produces, for every number and star key. -/
theorem claim_C1_recompute_idempotente (ss : List Sorteio) (hoje : ℤ)
    (st : EstatState) :
    atualizarEstatisticas ss hoje (atualizarEstatisticas ss hoje st) =
      atualizarEstatisticas ss hoje st := by
  by_cases h : ss.length = 0
  · simp [atualizarEstatisticas, h]
  · unfold atualizarEstatisticas
    rw [if_neg h, if_neg h]
    congr 1
    · funext n
      by_cases hn : 1 ≤ n ∧ n ≤ 50 <;> simp [hn]
    · funext e
      by_cases he : 1 ≤ e ∧ e ≤ 12 <;> simp [he]

/-- C9.  Recompute on an empty draw set is a no-op: when the draw count
is zero, `atualizar_estatisticas` returns before writing and every
previously stored statistic row is left unchanged. -/
theorem claim_C9_recompute_vazio_frame (ss : List Sorteio) (hoje : ℤ)
    (st : EstatState) (h : ss.length = 0) :
    atualizarEstatisticas ss hoje st = st := by
  simp [atualizarEstatisticas, h]

/-- Witness for C9 at the empty draw list and an arbitrary prior state. -/
theorem claim_C9_recompute_vazio_frame_witness :
    ([] : List Sorteio).length = 0 ∧
      atualizarEstatisticas [] 0 estadoVazio = estadoVazio :=
  ⟨rfl, claim_C9_recompute_vazio_frame [] 0 estadoVazio rfl⟩

/-- C3.  `status` is a pure function of the stored deviation: on the
4-decimal grid of the stored `Decimal` values it returns `"quente"`
exactly above `0.1`, `"frio"`/`"fria"` exactly below `-0.1`, `"normal"`
otherwise, and both exact boundary values map to `"normal"`; moreover
the deviation computed by the recompute is `(freq − expected)/expected`
with `expected = total⋅5/50` (numbers) or `total⋅2/12` (stars), and it
vanishes exactly when the frequency equals the expected frequency. -/
theorem claim_C3_status_desvio (k : ℤ) (total freq : ℕ) (htotal : 0 < total) :
    (statusNumero ((k : ℚ) / 10000) = "quente" ↔ (k : ℚ) / 10000 > 1 / 10) ∧
    (statusNumero ((k : ℚ) / 10000) = "frio" ↔ (k : ℚ) / 10000 < -(1 / 10)) ∧
    (statusEstrela ((k : ℚ) / 10000) = "quente" ↔ (k : ℚ) / 10000 > 1 / 10) ∧
    (statusEstrela ((k : ℚ) / 10000) = "fria" ↔ (k : ℚ) / 10000 < -(1 / 10)) ∧
    (statusNumero ((k : ℚ) / 10000) = "normal" ↔
      -(1 / 10) ≤ (k : ℚ) / 10000 ∧ (k : ℚ) / 10000 ≤ 1 / 10) ∧
    statusNumero (1 / 10) = "normal" ∧ statusNumero (-(1 / 10)) = "normal" ∧
    statusEstrela (1 / 10) = "normal" ∧ statusEstrela (-(1 / 10)) = "normal" ∧
    desvioNumero total freq =
      ((freq : ℚ) - (total : ℚ) * (5 / 50)) / ((total : ℚ) * (5 / 50)) ∧
    (desvioNumero total freq = 0 ↔ (freq : ℚ) = (total : ℚ) * (5 / 50)) ∧
    desvioEstrela total freq =
      ((freq : ℚ) - (total : ℚ) * (2 / 12)) / ((total : ℚ) * (2 / 12)) ∧
    (desvioEstrela total freq = 0 ↔ (freq : ℚ) = (total : ℚ) * (2 / 12)) := by
  have htQ : (0 : ℚ) < (total : ℚ) := by exact_mod_cast htotal
  have hexpN : (0 : ℚ) < (total : ℚ) * (5 / 50) := by positivity
  have hexpE : (0 : ℚ) < (total : ℚ) * (2 / 12) := by positivity
  have hgt := grid_gt_iff k
  have hlt := grid_lt_iff k
  have hno : ¬ ((k : ℚ) / 10000 > pyFloat01 ∧ (k : ℚ) / 10000 < -pyFloat01) := by
    rintro ⟨h1, h2⟩
    have := pyFloat01_gt
    linarith
  refine ⟨?_, ?_, ?_, ?_, ?_, ?_, ?_, ?_, ?_, ?_, ?_, ?_, ?_⟩
  · unfold statusNumero
    split
    · simpa using hgt.mp (by assumption)
    · split <;> simp_all
  · unfold statusNumero
    split
    · rename_i h1
      constructor
      · intro hcontra
        exact absurd hcontra (by simp)
      · intro h2
        exact absurd ⟨h1, hlt.mpr h2⟩ hno
    · split
      · simpa using hlt.mp (by assumption)
      · simp_all
  · unfold statusEstrela
    split
    · simpa using hgt.mp (by assumption)
    · split <;> simp_all
  · unfold statusEstrela
    split
    · rename_i h1
      constructor
      · intro hcontra
        exact absurd hcontra (by simp)
      · intro h2
        exact absurd ⟨h1, hlt.mpr h2⟩ hno
    · split
      · simpa using hlt.mp (by assumption)
      · simp_all
  · unfold statusNumero
    split
    · rename_i h1
      have := hgt.mp h1
      constructor
      · intro hcontra
        exact absurd hcontra (by simp)
      · intro h2
        linarith [this, h2.2]
    · split
      · rename_i h2
        have := hlt.mp (by assumption)
        constructor
        · intro hcontra
          exact absurd hcontra (by simp)
        · intro h3
          linarith [this, h3.1]
      · rename_i h1 h2
        simp only [true_iff]
        push_neg at h1 h2
        have hle1 : (k : ℚ) / 10000 ≤ 1 / 10 := by
          by_contra hc
          push_neg at hc
          linarith [hgt.mpr hc]
        have hle2 : -(1 / 10) ≤ (k : ℚ) / 10000 := by
          by_contra hc
          push_neg at hc
          linarith [hlt.mpr hc]
        exact ⟨hle2, hle1⟩
  · unfold statusNumero
    rw [if_neg (by have := pyFloat01_gt ; intro h ; linarith),
        if_neg (by have := pyFloat01_gt ; intro h ; linarith)]
  · unfold statusNumero
    rw [if_neg (by have := pyFloat01_gt ; intro h ; linarith),
        if_neg (by have := pyFloat01_gt ; intro h ; linarith)]
  · unfold statusEstrela
    rw [if_neg (by have := pyFloat01_gt ; intro h ; linarith),
        if_neg (by have := pyFloat01_gt ; intro h ; linarith)]
  · unfold statusEstrela
    rw [if_neg (by have := pyFloat01_gt ; intro h ; linarith),
        if_neg (by have := pyFloat01_gt ; intro h ; linarith)]
  · unfold desvioNumero
    rw [if_pos hexpN]
  · unfold desvioNumero
    rw [if_pos hexpN, div_eq_zero_iff]
    constructor
    · rintro (h | h)
      · linarith [sub_eq_zero.mp h]
      · exact absurd h (ne_of_gt hexpN)
    · intro h
      left
      rw [h]
      ring
  · unfold desvioEstrela
    rw [if_pos hexpE]
  · unfold desvioEstrela
    rw [if_pos hexpE, div_eq_zero_iff]
    constructor
    · rintro (h | h)
      · linarith [sub_eq_zero.mp h]
      · exact absurd h (ne_of_gt hexpE)
    · intro h
      left
      rw [h]
      ring

/-- Witness for C3 at deviation `0.1001`, ten draws, frequency one. -/
theorem claim_C3_status_desvio_witness :
    (0 : ℕ) < 10 ∧ statusNumero ((1001 : ℚ) / 10000) = "quente" ∧
      desvioNumero 10 1 = 0 := by
  have h := claim_C3_status_desvio 1001 10 1 (by norm_num)
  refine ⟨by norm_num, ?_, ?_⟩
  · exact h.1.mpr (by norm_num)
  · exact (h.2.2.2.2.2.2.2.2.2.2.1).mpr (by norm_num)

/-- The draw `[5,12,23,34,45] + [3,8]` of the specification scenario. -/
def sorteioCenario : Sorteio := ⟨0, 5, 12, 23, 34, 45, 3, 8⟩

/-- A bet identical to the scenario draw. -/
def apostaIgual : ApostaGerada := ⟨"aleatorio", 5, 12, 23, 34, 45, 3, 8⟩

/-- The fully disjoint scenario bet `[1,2,3,4,6] + [1,2]`. -/
def apostaDisjunta : ApostaGerada := ⟨"aleatorio", 1, 2, 3, 4, 6, 1, 2⟩

/-- C5.  Bet verification is intersection counting: `verificar_resultado`
returns the sizes of the number and star intersections, each bounded by
the smaller of the two sets; the identical bet against the scenario draw
scores `(5,2)` (the jackpot tier) and the disjoint bet `(0,0)` (no
prize). -/
theorem claim_C5_verificacao_intersecao (a : ApostaGerada) (s : Sorteio) :
    (verificarResultado a s).1 =
        (a.getNumeros.toFinset ∩ s.getNumeros.toFinset).card ∧
    (verificarResultado a s).2 =
        (a.getEstrelas.toFinset ∩ s.getEstrelas.toFinset).card ∧
    (verificarResultado a s).1 ≤
        min a.getNumeros.toFinset.card s.getNumeros.toFinset.card ∧
    (verificarResultado a s).2 ≤
        min a.getEstrelas.toFinset.card s.getEstrelas.toFinset.card ∧
    verificarResultado apostaIgual sorteioCenario = (5, 2) ∧
    calcularPremio 5 2 = "1º Prémio (Jackpot)" ∧
    verificarResultado apostaDisjunta sorteioCenario = (0, 0) ∧
    calcularPremio 0 0 = "Sem prémio" := by
  refine ⟨rfl, rfl, ?_, ?_, by decide, rfl, by decide, rfl⟩
  · exact le_min
      (Finset.card_le_card Finset.inter_subset_left)
      (Finset.card_le_card Finset.inter_subset_right)
  · exact le_min
      (Finset.card_le_card Finset.inter_subset_left)
      (Finset.card_le_card Finset.inter_subset_right)

/-- Summing the per-value occurrence counts over any index set
containing every element of the list recovers the list's length. -/
lemma sum_count_eq_length (l : List ℕ) (S : Finset ℕ)
    (h : ∀ x ∈ l, x ∈ S) : ∑ n ∈ S, l.count n = l.length := by
  induction l with
  | nil => simp
  | cons a t ih =>
      have ha : a ∈ S := h a (by simp)
      have ht : ∀ x ∈ t, x ∈ S := fun x hx => h x (by simp [hx])
      calc ∑ n ∈ S, (a :: t).count n
          = ∑ n ∈ S, (t.count n + if a = n then 1 else 0) := by
            refine Finset.sum_congr rfl fun n _ => ?_
            rw [List.count_cons]
            congr 1
            simp [beq_iff_eq]
        _ = (∑ n ∈ S, t.count n) + ∑ n ∈ S, (if a = n then 1 else 0) := by
            rw [Finset.sum_add_distrib]
        _ = t.length + 1 := by
            rw [ih ht, Finset.sum_ite_eq S a (fun _ => 1), if_pos ha]
        _ = (a :: t).length := by simp

/-- Every draw's `get_numeros` has exactly five entries. -/
lemma getNumeros_length (s : Sorteio) : s.getNumeros.length = 5 := by
  unfold Sorteio.getNumeros
  rw [List.length_insertionSort]
  rfl

/-- Every draw's `get_estrelas` has exactly two entries. -/
lemma getEstrelas_length (s : Sorteio) : s.getEstrelas.length = 2 := by
  unfold Sorteio.getEstrelas
  rw [List.length_insertionSort]
  rfl

/-- Flattening constant-length blocks multiplies the lengths. -/
lemma length_flatten_map {α : Type} (f : α → List ℕ) (c : ℕ)
    (hc : ∀ s, (f s).length = c) :
    ∀ l : List α, ((l.map f).flatten).length = c * l.length := by
  intro l
  induction l with
  | nil => simp
  | cons a t ih =>
      simp only [List.map_cons, List.flatten_cons, List.length_append,
        List.length_cons, ih, hc a]
      ring

/-- C2.  For a draw set whose draws each carry five distinct in-range
main numbers and two distinct in-range stars, the frequencies summed
over 1–50 equal `5 × total_draws`, and the star frequencies summed
over 1–12 equal `2 × total_draws`. -/
theorem claim_C2_soma_frequencias (sorteios : List Sorteio)
    (hnum : ∀ s ∈ sorteios, s.getNumeros.Nodup ∧
      ∀ x ∈ s.getNumeros, 1 ≤ x ∧ x ≤ 50)
    (hest : ∀ s ∈ sorteios, s.getEstrelas.Nodup ∧
      ∀ x ∈ s.getEstrelas, 1 ≤ x ∧ x ≤ 12) :
    (∑ n ∈ Finset.Icc 1 50, freqNumero sorteios n) = 5 * sorteios.length ∧
    (∑ e ∈ Finset.Icc 1 12, freqEstrela sorteios e) = 2 * sorteios.length := by
  constructor
  · have hmem : ∀ x ∈ (sorteios.map Sorteio.getNumeros).flatten,
        x ∈ Finset.Icc 1 50 := by
      intro x hx
      rw [List.mem_flatten] at hx
      obtain ⟨l, hl, hxl⟩ := hx
      rw [List.mem_map] at hl
      obtain ⟨s, hs, rfl⟩ := hl
      exact Finset.mem_Icc.mpr ((hnum s hs).2 x hxl)
    have hsum : ∑ n ∈ Finset.Icc 1 50, freqNumero sorteios n =
        ((sorteios.map Sorteio.getNumeros).flatten).length :=
      sum_count_eq_length _ _ hmem
    rw [hsum, length_flatten_map Sorteio.getNumeros 5 getNumeros_length]
  · have hmem : ∀ x ∈ (sorteios.map Sorteio.getEstrelas).flatten,
        x ∈ Finset.Icc 1 12 := by
      intro x hx
      rw [List.mem_flatten] at hx
      obtain ⟨l, hl, hxl⟩ := hx
      rw [List.mem_map] at hl
      obtain ⟨s, hs, rfl⟩ := hl
      exact Finset.mem_Icc.mpr ((hest s hs).2 x hxl)
    have hsum : ∑ e ∈ Finset.Icc 1 12, freqEstrela sorteios e =
        ((sorteios.map Sorteio.getEstrelas).flatten).length :=
      sum_count_eq_length _ _ hmem
    rw [hsum, length_flatten_map Sorteio.getEstrelas 2 getEstrelas_length]

/-- Witness for C2 on a concrete two-draw repository. -/
theorem claim_C2_soma_frequencias_witness :
    (∀ s ∈ [sorteioCenario, Sorteio.mk 7 1 2 3 4 6 1 2],
      s.getNumeros.Nodup ∧ ∀ x ∈ s.getNumeros, 1 ≤ x ∧ x ≤ 50) ∧
    (∀ s ∈ [sorteioCenario, Sorteio.mk 7 1 2 3 4 6 1 2],
      s.getEstrelas.Nodup ∧ ∀ x ∈ s.getEstrelas, 1 ≤ x ∧ x ≤ 12) ∧
    (∑ n ∈ Finset.Icc 1 50,
        freqNumero [sorteioCenario, Sorteio.mk 7 1 2 3 4 6 1 2] n) =
      5 * 2 ∧
    (∑ e ∈ Finset.Icc 1 12,
        freqEstrela [sorteioCenario, Sorteio.mk 7 1 2 3 4 6 1 2] e) =
      2 * 2 := by
  have h := claim_C2_soma_frequencias
    [sorteioCenario, Sorteio.mk 7 1 2 3 4 6 1 2] (by decide) (by decide)
  exact ⟨by decide, by decide, h.1, h.2⟩

/-- In a `≤`-sorted list every element is bounded by the last one. -/
lemma sorted_le_getLast :
    ∀ (l : List ℤ), l.Sorted (· ≤ ·) → ∀ (hne : l ≠ []) (x : ℤ),
      x ∈ l → x ≤ l.getLast hne := by
  intro l
  induction l with
  | nil => intro _ hne ; exact absurd rfl hne
  | cons a t ih =>
      intro hs hne x hx
      cases t with
      | nil =>
          rw [List.mem_singleton] at hx
          subst hx
          exact le_of_eq rfl
      | cons b t2 =>
          have hcons : (a :: b :: t2).getLast hne = (b :: t2).getLast (by simp) := by
            rw [List.getLast_cons]
          rw [hcons]
          rcases List.mem_cons.mp hx with rfl | hx2
          · exact le_trans (List.rel_of_sorted_cons hs _ (by simp))
              (ih (List.Sorted.of_cons hs) (by simp) b (by simp))
          · exact ih (List.Sorted.of_cons hs) (by simp) x hx2

/-- The appearance-date list built by `calcular_gaps` is sorted
ascending. -/
lemma aparicoes_sorted (ss : List Sorteio) (mem : Sorteio → Bool) :
    (aparicoes ss mem).Sorted (· ≤ ·) := by
  have h1 : (ordenarPorData ss).Pairwise dataLe :=
    List.sorted_insertionSort dataLe ss
  have h2 : ((ordenarPorData ss).filter mem).Pairwise dataLe := h1.filter mem
  exact h2.map Sorteio.data (fun _ _ hab => hab)

/-- Membership in the sorted pool coincides with the repository. -/
lemma mem_ordenarPorData {ss : List Sorteio} {s : Sorteio} :
    s ∈ ordenarPorData ss ↔ s ∈ ss :=
  (List.perm_insertionSort dataLe ss).mem_iff

/-- When the value occurs in no draw, the appearance list is empty. -/
lemma aparicoes_eq_nil {ss : List Sorteio} {mem : Sorteio → Bool}
    (h : ∀ s ∈ ss, ¬ mem s) : aparicoes ss mem = [] := by
  unfold aparicoes
  rw [List.map_eq_nil_iff, List.filter_eq_nil_iff]
  intro s hs
  exact h s (mem_ordenarPorData.mp hs)

/-- C7 counterexample.  In the `sorteios` recompute a value that never
occurred is stored with `dias_sem_sair = 0`, not the sentinel `9999`
the claim asserts: witness the single-draw repository `[1,2,3,4,5]+[1,2]`
and the absent number 50. -/
theorem claim_C7_sentinela_counterexample :
    (∀ s ∈ [Sorteio.mk 0 1 2 3 4 5 1 2], (50 : ℕ) ∉ s.getNumeros) ∧
    (rowNumero [Sorteio.mk 0 1 2 3 4 5 1 2] 10 50).dias_sem_sair = 0 ∧
    (rowNumero [Sorteio.mk 0 1 2 3 4 5 1 2] 10 50).dias_sem_sair ≠ 9999 := by
  refine ⟨by decide, by decide, by decide⟩

/-- C7 (amended).  For every value that never occurred the recompute
stores `dias_sem_sair = 0` (with a null last appearance) — the source
uses `0`, not the claim's `9999` sentinel; for every value that did
occur it stores `(today − last_occurrence_date).days`, where the last
occurrence date is the maximal date among the draws containing the
value. -/
theorem claim_C7_dias_sem_sair (ss : List Sorteio) (hoje : ℤ) (n : ℕ) :
    ((∀ s ∈ ss, n ∉ s.getNumeros) →
      (rowNumero ss hoje n).dias_sem_sair = 0 ∧
      (rowNumero ss hoje n).ultima_aparicao = none) ∧
    ((∃ s ∈ ss, n ∈ s.getNumeros) →
      ∃ d : ℤ, (rowNumero ss hoje n).ultima_aparicao = some d ∧
        (rowNumero ss hoje n).dias_sem_sair = hoje - d ∧
        (∃ s ∈ ss, s.data = d ∧ n ∈ s.getNumeros) ∧
        (∀ s ∈ ss, n ∈ s.getNumeros → s.data ≤ d)) := by
  have hdias : (rowNumero ss hoje n).dias_sem_sair =
      (calcularGaps ss hoje (fun s => decide (n ∈ s.getNumeros))).dias_sem_sair := rfl
  have hult : (rowNumero ss hoje n).ultima_aparicao =
      (calcularGaps ss hoje (fun s => decide (n ∈ s.getNumeros))).ultima_aparicao := rfl
  constructor
  · intro hnone
    have haps : aparicoes ss (fun s => decide (n ∈ s.getNumeros)) = [] :=
      aparicoes_eq_nil (fun s hs => by simpa using hnone s hs)
    rw [hdias, hult]
    unfold calcularGaps
    rw [haps]
    exact ⟨rfl, rfl⟩
  · intro hsome
    obtain ⟨s, hs, hns⟩ := hsome
    set mem : Sorteio → Bool := fun s => decide (n ∈ s.getNumeros) with hmem
    have hsfil : s ∈ (ordenarPorData ss).filter mem := by
      rw [List.mem_filter]
      exact ⟨mem_ordenarPorData.mpr hs, by simp [hmem, hns]⟩
    have hne : aparicoes ss mem ≠ [] := by
      unfold aparicoes
      intro hcontra
      rw [List.map_eq_nil_iff] at hcontra
      rw [hcontra] at hsfil
      exact absurd hsfil (List.not_mem_nil s)
    set d : ℤ := (aparicoes ss mem).getLast hne with hd
    have hlast : (aparicoes ss mem).getLast? = some d :=
      List.getLast?_eq_getLast_of_ne_nil hne
    have hgaps : calcularGaps ss hoje mem =
        ⟨if diffs (aparicoes ss mem) = [] then 0
          else ((diffs (aparicoes ss mem)).sum : ℚ) / (diffs (aparicoes ss mem)).length,
         maxOfList (diffs (aparicoes ss mem)), some d, hoje - d⟩ := by
      unfold calcularGaps
      dsimp only
      rw [hlast]
    refine ⟨d, ?_, ?_, ?_, ?_⟩
    · rw [hult, hgaps]
    · rw [hdias, hgaps]
    · have hdmem : d ∈ aparicoes ss mem := List.getLast_mem hne
      unfold aparicoes at hdmem
      rw [List.mem_map] at hdmem
      obtain ⟨s2, hs2, hs2d⟩ := hdmem
      rw [List.mem_filter] at hs2
      refine ⟨s2, mem_ordenarPorData.mp hs2.1, hs2d, ?_⟩
      have := hs2.2
      simpa [hmem] using this
    · intro s3 hs3 hn3
      have hfil : s3 ∈ (ordenarPorData ss).filter mem := by
        rw [List.mem_filter]
        exact ⟨mem_ordenarPorData.mpr hs3, by simp [hmem, hn3]⟩
      have hdata : s3.data ∈ aparicoes ss mem := by
        unfold aparicoes
        exact List.mem_map_of_mem Sorteio.data hfil
      exact sorted_le_getLast (aparicoes ss mem) (aparicoes_sorted ss mem)
        hne s3.data hdata

/-- Witness for C7 (amended) on a concrete two-draw repository. -/
theorem claim_C7_dias_sem_sair_witness :
    ((∀ s ∈ [Sorteio.mk 0 1 2 3 4 5 1 2], (50 : ℕ) ∉ s.getNumeros) →
      (rowNumero [Sorteio.mk 0 1 2 3 4 5 1 2] 10 50).dias_sem_sair = 0 ∧
      (rowNumero [Sorteio.mk 0 1 2 3 4 5 1 2] 10 50).ultima_aparicao = none) ∧
    ((∃ s ∈ [Sorteio.mk 0 1 2 3 4 5 1 2], (1 : ℕ) ∈ s.getNumeros) →
      ∃ d : ℤ,
        (rowNumero [Sorteio.mk 0 1 2 3 4 5 1 2] 10 1).ultima_aparicao = some d ∧
        (rowNumero [Sorteio.mk 0 1 2 3 4 5 1 2] 10 1).dias_sem_sair = 10 - d ∧
        (∃ s ∈ [Sorteio.mk 0 1 2 3 4 5 1 2], s.data = d ∧ (1 : ℕ) ∈ s.getNumeros) ∧
        (∀ s ∈ [Sorteio.mk 0 1 2 3 4 5 1 2], (1 : ℕ) ∈ s.getNumeros → s.data ≤ d)) :=
  ⟨(claim_C7_dias_sem_sair [Sorteio.mk 0 1 2 3 4 5 1 2] 10 50).1,
   (claim_C7_dias_sem_sair [Sorteio.mk 0 1 2 3 4 5 1 2] 10 1).2⟩

/-- Means of natural-valued sums are nonnegative. -/
lemma mediaQ_nonneg (l : List ℕ) : 0 ≤ mediaQ l := by
  unfold mediaQ
  split
  · exact le_refl 0
  · positivity

/-- C8 counterexample.  Two draws, the chronologically later one (date
7) summing to 200 and the earlier one (date 0) to 100: the more recent
half's mean exceeds the earlier half's mean by far more than 5%, yet
`analisar_soma_tendencias` classifies the trend as `"descendo"` — its
`primeira_metade` is the head of a *descending*-date list, so the
halves are chronologically swapped relative to the claim. -/
theorem claim_C8_tendencia_counterexample :
    (analisarSomaTendencias
        [Sorteio.mk 0 10 15 20 25 30 1 2, Sorteio.mk 7 30 35 40 45 50 1 2]
        2).map TendenciasResult.tendencia = some "descendo" ∧
    mediaQ ([Sorteio.mk 7 30 35 40 45 50 1 2].map Sorteio.somaNumeros) >
      mediaQ ([Sorteio.mk 0 10 15 20 25 30 1 2].map Sorteio.somaNumeros) *
        (21 / 20) := by
  constructor
  · norm_num [analisarSomaTendencias, ordenarPorDataDesc, List.insertionSort,
      List.orderedInsert, mediaQ, Sorteio.somaNumeros, Sorteio.getNumeros]
    exact ⟨⟨200, 100, "descendo"⟩, ⟨by simp, rfl⟩, rfl⟩
  · norm_num [mediaQ, Sorteio.somaNumeros, Sorteio.getNumeros,
      List.insertionSort, List.orderedInsert]

/-- C8 (amended).  Over the most recent draws listed most-recent-first,
`analisar_soma_tendencias` compares the mean of the *chronologically
earlier* half (`segunda_metade`, the tail of the descending list)
against the mean of the *most recent* half (`primeira_metade`, its
head): the trend is `"subindo"` exactly when the earlier half's mean
exceeds the recent half's mean by more than 5%, `"descendo"` exactly
when it is more than 5% below it, and `"estavel"` otherwise — i.e. the
labels are attached to the reverse of the chronological direction the
claim states. -/
theorem claim_C8_tendencia (ss : List Sorteio) (ultimosN : ℕ)
    (hsorted : ss.Pairwise (fun a b => b.data < a.data))
    (hne : ss ≠ []) (hlen : ss.length ≤ ultimosN) :
    ∃ t : TendenciasResult,
      analisarSomaTendencias ss ultimosN = some t ∧
      t.media_primeira =
        mediaQ ((ss.map Sorteio.somaNumeros).take (ss.length / 2)) ∧
      t.media_segunda =
        mediaQ ((ss.map Sorteio.somaNumeros).drop (ss.length / 2)) ∧
      (∀ a ∈ ss.drop (ss.length / 2), ∀ b ∈ ss.take (ss.length / 2),
        a.data < b.data) ∧
      (t.tendencia = "subindo" ↔
        t.media_segunda > t.media_primeira * (21 / 20)) ∧
      (t.tendencia = "descendo" ↔
        t.media_segunda < t.media_primeira * (19 / 20)) ∧
      (t.tendencia = "estavel" ↔
        ¬ t.media_segunda > t.media_primeira * (21 / 20) ∧
        ¬ t.media_segunda < t.media_primeira * (19 / 20)) := by
  have hws : List.Sorted (fun a b => b.data ≤ a.data) ss :=
    hsorted.imp (fun h => le_of_lt h)
  have hsort : ordenarPorDataDesc ss = ss := hws.insertionSort_eq
  have hlenmap : (ss.map Sorteio.somaNumeros).length = ss.length :=
    List.length_map ss Sorteio.somaNumeros
  set somas := ss.map Sorteio.somaNumeros with hsomas
  set mP := mediaQ (somas.take (ss.length / 2)) with hmP
  set mS := mediaQ (somas.drop (ss.length / 2)) with hmS
  set tstr :=
    if mS > mP * (21 / 20) then "subindo"
    else if mS < mP * (19 / 20) then "descendo"
    else "estavel" with htstr
  have hform : analisarSomaTendencias ss ultimosN = some ⟨mP, mS, tstr⟩ := by
    unfold analisarSomaTendencias
    rw [hsort, List.take_of_length_le hlen, if_neg hne]
    dsimp only
    rw [← hsomas, hlenmap, ← hmP, ← hmS, ← htstr]
  have hcross : ∀ a ∈ ss.drop (ss.length / 2), ∀ b ∈ ss.take (ss.length / 2),
      a.data < b.data := by
    have h2 := hsorted
    rw [← List.take_append_drop (ss.length / 2) ss] at h2
    have h3 := (List.pairwise_append.mp h2).2.2
    exact fun a ha b hb => h3 b hb a ha
  have hPnn : 0 ≤ mP := mediaQ_nonneg _
  have hexcl : mS < mP * (19 / 20) → ¬ mS > mP * (21 / 20) := by
    intro hlt hgt
    nlinarith
  refine ⟨⟨mP, mS, tstr⟩, hform, rfl, rfl, hcross, ?_, ?_, ?_⟩
  · rw [htstr]
    split
    · simp only [true_iff]
      assumption
    · split <;> simp_all
  · rw [htstr]
    split
    · rename_i hgt
      constructor
      · intro hcontra
        exact absurd hcontra (by simp)
      · intro hlt
        exact absurd hgt (hexcl hlt)
    · split
      · simp only [true_iff]
        assumption
      · simp_all
  · rw [htstr]
    split
    · simp_all
    · split
      · simp_all
      · simp_all

/-- Witness for C8 (amended) on the two-draw counterexample repository
given most-recent-first. -/
theorem claim_C8_tendencia_witness :
    ([Sorteio.mk 7 30 35 40 45 50 1 2,
        Sorteio.mk 0 10 15 20 25 30 1 2].Pairwise
          (fun a b => b.data < a.data)) ∧
    ([Sorteio.mk 7 30 35 40 45 50 1 2,
        Sorteio.mk 0 10 15 20 25 30 1 2] : List Sorteio) ≠ [] ∧
    ([Sorteio.mk 7 30 35 40 45 50 1 2,
        Sorteio.mk 0 10 15 20 25 30 1 2] : List Sorteio).length ≤ 2 ∧
    ∃ t : TendenciasResult,
      analisarSomaTendencias
        [Sorteio.mk 7 30 35 40 45 50 1 2, Sorteio.mk 0 10 15 20 25 30 1 2]
        2 = some t ∧
      (t.tendencia = "subindo" ↔
        t.media_segunda > t.media_primeira * (21 / 20)) := by
  have h := claim_C8_tendencia
    [Sorteio.mk 7 30 35 40 45 50 1 2, Sorteio.mk 0 10 15 20 25 30 1 2]
    2 (by decide) (by decide) (by decide)
  obtain ⟨t, hf, _, _, _, hsub, _, _⟩ := h
  exact ⟨by decide, by decide, by decide, t, hf, hsub⟩

/-- The cumulative walk never leaves the pool. -/
lemma walkFind_lt_length :
    ∀ (l : List ℚ) (acc r : ℚ) (i : ℕ), walkFind l acc r = some i → i < l.length := by
  intro l
  induction l with
  | nil => intro acc r i h ; exact absurd h (by simp [walkFind])
  | cons s rest ih =>
      intro acc r i h
      unfold walkFind at h
      split at h
      · simp only [Option.some.injEq] at h
        subst h
        simp
      · rcases Option.map_eq_some'.mp h with ⟨j, hj, rfl⟩
        have := ih (acc + s) r j hj
        simpa [Nat.succ_lt_succ_iff] using this

/-- The index chosen in one iteration of `_selecionar_ponderado` is
always inside the pool. -/
lemma selIdx_lt_length (disp : List (ℕ × ℚ)) (r : ℚ) (ri : ℕ)
    (h : disp ≠ []) : selIdx disp r ri < disp.length := by
  have hpos : 0 < disp.length := List.length_pos.mpr h
  unfold selIdx
  dsimp only
  split
  · exact Nat.mod_lt ri hpos
  · cases heq : walkFind (disp.map Prod.snd) 0 r with
    | none => simpa [heq] using hpos
    | some i =>
        have := walkFind_lt_length (disp.map Prod.snd) 0 r i heq
        rw [List.length_map] at this
        simpa [heq] using this

/-- Mapping commutes with index removal. -/
lemma map_eraseIdx {α β : Type} (f : α → β) :
    ∀ (l : List α) (i : ℕ), (l.eraseIdx i).map f = (l.map f).eraseIdx i := by
  intro l
  induction l with
  | nil => intro i ; simp [List.eraseIdx]
  | cons a t ih =>
      intro i
      cases i with
      | zero => simp [List.eraseIdx]
      | succ j => simp [List.eraseIdx, ih]

/-- With enough pool the selection loop never breaks early: it returns
exactly its fuel count of values. -/
lemma selLoop_length :
    ∀ (k : ℕ) (disp : List (ℕ × ℚ)) (rq : ℕ → ℚ) (ri : ℕ → ℕ) (step : ℕ),
      k ≤ disp.length → (selLoop k disp rq ri step).length = k := by
  intro k
  induction k with
  | zero => intro disp rq ri step _ ; rfl
  | succ k ih =>
      intro disp rq ri step hk
      have hne : disp ≠ [] := by
        intro hcontra
        rw [hcontra] at hk
        exact absurd hk (by simp)
      have hidx := selIdx_lt_length disp (rq step) (ri step) hne
      unfold selLoop
      rw [if_neg hne]
      have herase : (disp.eraseIdx (selIdx disp (rq step) (ri step))).length =
          disp.length - 1 := by
        rw [List.length_eraseIdx, if_pos hidx]
      have hk2 : k ≤ (disp.eraseIdx (selIdx disp (rq step) (ri step))).length := by
        rw [herase]
        omega
      simp [ih _ rq ri (step + 1) hk2]

/-- Everything the loop selects comes from the pool's value column. -/
lemma selLoop_subset :
    ∀ (k : ℕ) (disp : List (ℕ × ℚ)) (rq : ℕ → ℚ) (ri : ℕ → ℕ) (step x : ℕ),
      x ∈ selLoop k disp rq ri step → x ∈ disp.map Prod.fst := by
  intro k
  induction k with
  | zero => intro disp rq ri step x h ; exact absurd h (by simp [selLoop])
  | succ k ih =>
      intro disp rq ri step x h
      unfold selLoop at h
      split at h
      · exact absurd h (by simp)
      · rename_i hne
        have hidx := selIdx_lt_length disp (rq step) (ri step) hne
        rcases List.mem_cons.mp h with rfl | hrec
        · rw [List.getD_eq_get disp (0, 0) hidx]
          exact List.mem_map_of_mem Prod.fst (disp.get_mem _ hidx)
        · have hmem := ih _ rq ri (step + 1) x hrec
          rw [map_eraseIdx] at hmem
          exact (List.eraseIdx_sublist (disp.map Prod.fst) _).mem hmem

/-- If the value column is duplicate-free, the value picked at `i` no
longer occurs once position `i` is removed. -/
lemma getD_fst_not_mem_eraseIdx :
    ∀ (l : List (ℕ × ℚ)) (i : ℕ), i < l.length → (l.map Prod.fst).Nodup →
      (l.getD i (0, 0)).1 ∉ (l.eraseIdx i).map Prod.fst := by
  intro l
  induction l with
  | nil => intro i hi ; exact absurd hi (by simp)
  | cons a t ih =>
      intro i hi hnodup
      cases i with
      | zero =>
          simp only [List.getD_cons_zero, List.eraseIdx_cons_zero]
          exact (List.nodup_cons.mp hnodup).1
      | succ j =>
          have hj : j < t.length := by simpa [Nat.succ_lt_succ_iff] using hi
          have htail := (List.nodup_cons.mp hnodup).2
          have hhead := (List.nodup_cons.mp hnodup).1
          simp only [List.getD_cons_succ, List.eraseIdx_cons_succ, List.map_cons,
            List.mem_cons, not_or]
          constructor
          · intro hcontra
            apply hhead
            rw [← hcontra]
            rw [List.getD_eq_get t (0, 0) hj]
            exact List.mem_map_of_mem Prod.fst (t.get_mem _ hj)
          · exact ih j hj htail

/-- The loop never selects the same value twice when the pool's value
column is duplicate-free. -/
lemma selLoop_nodup :
    ∀ (k : ℕ) (disp : List (ℕ × ℚ)) (rq : ℕ → ℚ) (ri : ℕ → ℕ) (step : ℕ),
      (disp.map Prod.fst).Nodup → (selLoop k disp rq ri step).Nodup := by
  intro k
  induction k with
  | zero => intro disp rq ri step _ ; simp [selLoop]
  | succ k ih =>
      intro disp rq ri step hnodup
      unfold selLoop
      split
      · simp
      · rename_i hne
        have hidx := selIdx_lt_length disp (rq step) (ri step) hne
        rw [List.nodup_cons]
        constructor
        · intro hcontra
          have hmem := selLoop_subset k _ rq ri (step + 1) _ hcontra
          exact getD_fst_not_mem_eraseIdx disp _ hidx hnodup hmem
        · apply ih
          rw [map_eraseIdx]
          exact ((List.eraseIdx_sublist (disp.map Prod.fst) _)).nodup hnodup

/-- C4.  Weighted sampling without replacement never returns the same
value twice within a call: for a pool with pairwise-distinct values the
result is duplicate-free and has length `min n (pool size)` — and with
all-zero scores (the uniform-random fallback) it still returns that
many items. -/
theorem claim_C4_selecao_ponderada (items : List (ℕ × ℚ)) (n : ℕ)
    (rq : ℕ → ℚ) (ri : ℕ → ℕ) (hnodup : (items.map Prod.fst).Nodup) :
    (selecionarPonderado items n rq ri).length = min n items.length ∧
    (selecionarPonderado items n rq ri).Nodup ∧
    ((∀ p ∈ items, p.2 = 0) →
      (selecionarPonderado items n rq ri).length = min n items.length) := by
  unfold selecionarPonderado
  split
  · rename_i heq
    subst heq
    simp
  · refine ⟨selLoop_length _ items rq ri 0 (min_le_right n items.length),
      selLoop_nodup _ items rq ri 0 hnodup, fun _ =>
      selLoop_length _ items rq ri 0 (min_le_right n items.length)⟩

/-- Witness for C4 on a three-item all-zero-score pool. -/
theorem claim_C4_selecao_ponderada_witness :
    (([((1 : ℕ), (0 : ℚ)), (2, 0), (3, 0)].map Prod.fst).Nodup) ∧
    (selecionarPonderado [((1 : ℕ), (0 : ℚ)), (2, 0), (3, 0)] 2
        (fun _ => 0) (fun k => k)).length = min 2 3 ∧
    (selecionarPonderado [((1 : ℕ), (0 : ℚ)), (2, 0), (3, 0)] 2
        (fun _ => 0) (fun k => k)).Nodup := by
  have h := claim_C4_selecao_ponderada [((1 : ℕ), (0 : ℚ)), (2, 0), (3, 0)] 2
    (fun _ => 0) (fun k => k) (by decide)
  exact ⟨by decide, h.1, h.2.1⟩

/-- C6.  CSV import deduplicates solely by date: a candidate row that
passed the shape check and whose parsed date already exists in the
repository is counted as a duplicate and not inserted, whatever its
numbers and stars are; a valid novel row is inserted; and the two-row
scenario (one duplicate of an existing draw, one novel valid row)
reports 1 new and 1 duplicate and grows the repository by exactly
one draw. -/
theorem claim_C6_importacao_dedup (st : ImportState) (d : ℤ)
    (nums ests : List ℕ) (h5 : nums.length = 5) (h2 : ests.length = 2) :
    ((∃ s ∈ st.repo, s.data = d) →
      importStep st ⟨some d, nums, ests⟩ =
        { st with duplicados := st.duplicados + 1 }) ∧
    ((¬ ∃ s ∈ st.repo, s.data = d) →
      importStep st ⟨some d, nums, ests⟩ =
        { st with
          repo := st.repo ++ [mkSorteio d nums ests]
          importados := st.importados + 1 }) ∧
    (importarCsv [mkSorteio 0 [1, 2, 3, 4, 5] [1, 2]]
        [⟨some 0, [5, 12, 23, 34, 45], [3, 8]⟩,
         ⟨some 7, [10, 20, 30, 40, 49], [4, 9]⟩] =
      { repo := [mkSorteio 0 [1, 2, 3, 4, 5] [1, 2],
                 mkSorteio 7 [10, 20, 30, 40, 49] [4, 9]]
        importados := 1
        duplicados := 1
        erros := 0 }) := by
  have hshape : ¬ (nums.length ≠ 5 ∨ ests.length ≠ 2) := by
    rw [h5, h2]
    simp
  refine ⟨?_, ?_, by decide⟩
  · intro hdup
    have hany : st.repo.any (fun s => s.data = d) = true := by
      rw [List.any_eq_true]
      obtain ⟨s, hs, hsd⟩ := hdup
      exact ⟨s, hs, by simp [hsd]⟩
    unfold importStep
    dsimp only
    rw [if_neg hshape, if_pos hany]
  · intro hnodup
    have hany : ¬ st.repo.any (fun s => s.data = d) = true := by
      rw [List.any_eq_true]
      intro ⟨s, hs, hsd⟩
      exact hnodup ⟨s, hs, by simpa using hsd⟩
    unfold importStep
    dsimp only
    rw [if_neg hshape, if_neg hany]

/-- Witness for C6 at a one-draw repository and a fresh date. -/
theorem claim_C6_importacao_dedup_witness :
    ([(5 : ℕ), 12, 23, 34, 45].length = 5) ∧ ([(3 : ℕ), 8].length = 2) ∧
    ((∃ s ∈ (ImportState.mk [mkSorteio 0 [1, 2, 3, 4, 5] [1, 2]] 0 0 0).repo,
        s.data = 0) →
      importStep (ImportState.mk [mkSorteio 0 [1, 2, 3, 4, 5] [1, 2]] 0 0 0)
          ⟨some 0, [5, 12, 23, 34, 45], [3, 8]⟩ =
        { ImportState.mk [mkSorteio 0 [1, 2, 3, 4, 5] [1, 2]] 0 0 0 with
            duplicados := 0 + 1 }) := by
  have h := claim_C6_importacao_dedup
    (ImportState.mk [mkSorteio 0 [1, 2, 3, 4, 5] [1, 2]] 0 0 0) 0
    [5, 12, 23, 34, 45] [3, 8] (by decide) (by decide)
  exact ⟨by decide, by decide, h.1⟩

/-- C10.  For any strategy string outside the recognised set,
`gerar_e_guardar` raises no unknown-strategy error: it runs the
pure-random path (uniform 5-of-50 and 2-of-12 sampling without
replacement, exactly what the `'aleatorio'` strategy runs on the same
random source) and stores the bet tagged with the caller-supplied
strategy string. -/
theorem claim_C10_estrategia_desconhecida (estrategia : String)
    (rs : RandomSource) (conhecida : String → List ℕ × List ℕ)
    (h : estrategia ∉ estrategiasConhecidas) :
    (gerarEGuardar estrategia rs conhecida).estrategia = estrategia ∧
    gerarEGuardar estrategia rs conhecida =
      { gerarEGuardar "aleatorio" rs conhecida with estrategia := estrategia } := by
  have haleat : ("aleatorio" : String) ∉ estrategiasConhecidas := by decide
  unfold gerarEGuardar
  rw [if_neg h, if_neg haleat]
  exact ⟨rfl, rfl⟩

/-- Witness for C10 at the unknown strategy string `"zodiaco"`. -/
theorem claim_C10_estrategia_desconhecida_witness :
    ("zodiaco" : String) ∉ estrategiasConhecidas ∧
    (gerarEGuardar "zodiaco"
        ⟨fun pool k => pool.take k⟩ (fun _ => ([], [])) ).estrategia =
      "zodiaco" := by
  have h := claim_C10_estrategia_desconhecida "zodiaco"
    ⟨fun pool k => pool.take k⟩ (fun _ => ([], [])) (by decide)
  exact ⟨by decide, h.1⟩

end Euromilhoes
